import Mathlib

/-!
Shallow embedding of the PetroGeoSim core (models.py, regions.py,
properties.py, distributions.py, equation_parser.py) and proofs about it.

Conventions of the embedding:
* Python floats are modelled as rationals (`ℚ`); `exp(mean)` (used only by
  the lognormal translation) is kept symbolic via the `PVal.expV` tag.
* Python dicts are association lists `List (String × α)` that keep insertion
  order; lookup returns the first binding, and Python guarantees key
  uniqueness (`Nodup` hypotheses are stated where a proof needs it).
* `numpy.random.SeedSequence` is modelled by its reproducibility-relevant
  content: entropy, spawn key and the number of children already spawned.
* Statements that in Python raise an exception are modelled with
  `Except`/`Option`; methods that mutate state before raising return the
  mutated state together with an `Option` error.
* `scipy.stats.<dist>.rvs` is a deterministic function of the distribution,
  its native parameters, the sample count and the generator state; the
  development is parametric in that function (`SampleFn`).
-/

namespace PGS

/-- First binding for key `k` in a Python-dict-like association list. -/
def findKV {α : Type} (d : List (String × α)) (k : String) : Option α :=
  match d with
  | [] => none
  | (k2, v) :: rest => if k2 = k then some v else findKV rest k

theorem findKV_mem {α : Type} {d : List (String × α)} {k : String} {v : α}
    (h : findKV d k = some v) : (k, v) ∈ d := by
  induction d with
  | nil => simp [findKV] at h
  | cons kv rest ih =>
    cases kv with
    | mk k2 v2 =>
      by_cases hk : k2 = k
      · subst hk
        simp only [findKV, if_pos rfl] at h
        injection h with h2
        subst h2
        exact List.mem_cons_self _ _
      · simp only [findKV, if_neg hk] at h
        exact List.mem_cons_of_mem _ (ih h)

theorem findKV_of_mem_nodup {α : Type} {d : List (String × α)} {k : String}
    {v : α} (hnd : (d.map Prod.fst).Nodup) (h : (k, v) ∈ d) :
    findKV d k = some v := by
  induction d with
  | nil => simp at h
  | cons kv rest ih =>
    cases kv with
    | mk k2 v2 =>
      simp only [List.map_cons, List.nodup_cons] at hnd
      rcases List.mem_cons.mp h with h1 | h1
      · cases h1
        simp [findKV]
      · have hne : ¬ k2 = k := by
          intro he
          subst he
          exact hnd.1 (List.mem_map.mpr ⟨(k2, v), h1, rfl⟩)
        simpa [findKV, hne] using ih hnd.2 h1

theorem findKV_isSome_of_mem {α : Type} {d : List (String × α)} {k : String}
    {v : α} (h : (k, v) ∈ d) : (findKV d k).isSome := by
  induction d with
  | nil => simp at h
  | cons kv rest ih =>
    cases kv with
    | mk k2 v2 =>
      by_cases hk : k2 = k
      · simp [findKV, hk]
      · rcases List.mem_cons.mp h with h1 | h1
        · cases h1; simp at hk
        · simpa [findKV, hk] using ih h1

theorem findKV_map {α β : Type} (g : α → β) (d : List (String × α))
    (k : String) :
    findKV (d.map (fun kv => (kv.1, g kv.2))) k = (findKV d k).map g := by
  induction d with
  | nil => rfl
  | cons kv rest ih =>
    cases kv with
    | mk k2 v2 =>
      by_cases hk : k2 = k <;> simp [findKV, hk, ih]

/-- Equality of two string lists viewed as Python sets. -/
def setEqS (a b : List String) : Bool :=
  a.all (fun x => decide (x ∈ b)) && b.all (fun x => decide (x ∈ a))

theorem setEqS_iff {a b : List String} :
    setEqS a b = true ↔ ∀ x, x ∈ a ↔ x ∈ b := by
  simp only [setEqS, Bool.and_eq_true, List.all_eq_true, decide_eq_true_iff]
  constructor
  · rintro ⟨h1, h2⟩ x
    exact ⟨fun hx => h1 x hx, fun hx => h2 x hx⟩
  · intro h
    exact ⟨fun x hx => (h x).mp hx, fun x hx => (h x).mpr hx⟩

/-- Python `dict.__eq__` on association lists: equal key sets and, for every
shared key, values equal under `f`. Matches Python semantics when the key
lists are duplicate-free (true of every Python dict). -/
def dictBeq {α β : Type} (f : α → β → Bool) (d1 : List (String × α))
    (d2 : List (String × β)) : Bool :=
  d1.all (fun p =>
    match findKV d2 p.1 with
    | some v => f p.2 v
    | none => false)
  && d2.all (fun p => (findKV d1 p.1).isSome)

theorem dictBeq_iff {α β : Type} {f : α → β → Bool} {d1 : List (String × α)}
    {d2 : List (String × β)} (h1 : (d1.map Prod.fst).Nodup) :
    dictBeq f d1 d2 = true ↔
      ((∀ k v1, findKV d1 k = some v1 →
          ∃ v2, findKV d2 k = some v2 ∧ f v1 v2 = true)
       ∧ ∀ k v2, findKV d2 k = some v2 → (findKV d1 k).isSome) := by
  simp only [dictBeq, Bool.and_eq_true, List.all_eq_true]
  constructor
  · rintro ⟨ha, hb⟩
    constructor
    · intro k v1 hk
      have hmem := findKV_mem hk
      have := ha (k, v1) hmem
      revert this
      cases hfk : findKV d2 k with
      | none => simp
      | some v2 => exact fun hf => ⟨v2, rfl, hf⟩
    · intro k v2 hk
      exact hb (k, v2) (findKV_mem hk)
  · rintro ⟨ha, hb⟩
    constructor
    · intro p hp
      cases p with
      | mk k v =>
        have hfk : findKV d1 k = some v := findKV_of_mem_nodup h1 hp
        rcases ha k v hfk with ⟨v2, hv2, hf⟩
        simp [hv2, hf]
    · intro p hp
      cases p with
      | mk k v =>
        have : (findKV d2 k).isSome := findKV_isSome_of_mem hp
        rcases Option.isSome_iff_exists.mp this with ⟨v2, hv2⟩
        exact hb k v2 hv2

theorem dictBeq_map_iff {α β γ : Type} (f : α → γ → Bool) (g : β → γ)
    (d1 : List (String × α)) (d2 : List (String × β))
    (h1 : (d1.map Prod.fst).Nodup) :
    dictBeq f d1 (d2.map (fun kv => (kv.1, g kv.2))) = true ↔
      ((∀ k, (findKV d1 k).isSome ↔ (findKV d2 k).isSome)
       ∧ ∀ k v1 v2, findKV d1 k = some v1 → findKV d2 k = some v2 →
           f v1 (g v2) = true) := by
  rw [dictBeq_iff h1]
  constructor
  · rintro ⟨ha, hb⟩
    constructor
    · intro k
      constructor
      · intro hk
        rcases Option.isSome_iff_exists.mp hk with ⟨v1, hv1⟩
        rcases ha k v1 hv1 with ⟨w, hw, _⟩
        rw [findKV_map] at hw
        rcases Option.map_eq_some'.mp hw with ⟨v2, hv2, _⟩
        exact Option.isSome_iff_exists.mpr ⟨v2, hv2⟩
      · intro hk
        rcases Option.isSome_iff_exists.mp hk with ⟨v2, hv2⟩
        exact hb k (g v2) (by rw [findKV_map, hv2]; rfl)
    · intro k v1 v2 hv1 hv2
      rcases ha k v1 hv1 with ⟨w, hw, hf⟩
      rw [findKV_map, hv2] at hw
      injection hw with hw2
      rw [← hw2] at hf
      exact hf
  · rintro ⟨ha, hb⟩
    constructor
    · intro k v1 hv1
      have h2 : (findKV d2 k).isSome :=
        (ha k).mp (Option.isSome_iff_exists.mpr ⟨v1, hv1⟩)
      rcases Option.isSome_iff_exists.mp h2 with ⟨v2, hv2⟩
      exact ⟨g v2, by rw [findKV_map, hv2]; rfl, hb k v1 v2 hv1 hv2⟩
    · intro k w hw
      rw [findKV_map] at hw
      rcases Option.map_eq_some'.mp hw with ⟨v2, hv2, _⟩
      exact (ha k).mpr (Option.isSome_iff_exists.mpr ⟨v2, hv2⟩)

/-! ## SeedSequence / Generator model -/

/-- Reproducibility-relevant state of a `numpy.random.SeedSequence`:
its entropy, its spawn key, and how many children it has spawned. -/
structure SeedState where
  entropy : Nat
  key : List Nat
  children : Nat
  deriving DecidableEq, Repr

/-- `SeedSequence(e)`. -/
def seedSeq (e : Nat) : SeedState := ⟨e, [], 0⟩

/-- `parent.spawn(1)[0]`: returns the child together with the mutated
parent (whose spawn counter advanced by one). -/
def spawn1 (s : SeedState) : SeedState × SeedState :=
  (⟨s.entropy, s.key ++ [s.children], 0⟩, ⟨s.entropy, s.key, s.children + 1⟩)

/-- State of a `numpy.random.Generator`: the seed it was built from and how
many sampling calls have consumed it. -/
structure RngState where
  seed : SeedState
  draws : Nat
  deriving DecidableEq, Repr

/-- `numpy.random.default_rng(seed)`. -/
def defaultRng (s : SeedState) : RngState := ⟨s, 0⟩

/-! ## distributions.py -/

/-- The six supported distribution kinds (keys of `SCIPY_NAMES`). -/
inductive DistName where
  | uniform
  | normal
  | beta
  | lognormal
  | triangular
  | truncnorm
  deriving DecidableEq, Repr

/-- `DISTRIBUTIONS_KWARGS`: the friendly parameter-name set of each kind
(Python stores these as sets; modelled as duplicate-free lists). -/
def DISTRIBUTIONS_KWARGS : DistName → List String
  | .uniform => ["min", "max"]
  | .normal => ["mean", "std"]
  | .beta => ["a", "b", "min", "max"]
  | .lognormal => ["std", "shift", "mean"]
  | .triangular => ["mode", "min", "max"]
  | .truncnorm => ["min", "max", "mean", "std"]

/-- `Distribution.SCIPY_NAMES.get(name, None)`. -/
def SCIPY_NAMES (s : String) : Option DistName :=
  if s = "uniform" then some .uniform
  else if s = "normal" then some .normal
  else if s = "beta" then some .beta
  else if s = "lognormal" then some .lognormal
  else if s = "triangular" then some .triangular
  else if s = "truncated normal" then some .truncnorm
  else none

/-- A native (SciPy) parameter value: a rational, or `exp` of a rational
kept symbolic (`exp(mean)` in the lognormal translation is the single
place the source leaves the rationals). -/
inductive PVal where
  | ratV : ℚ → PVal
  | expV : ℚ → PVal
  deriving DecidableEq, Repr

/-- `Distribution._intersept_kwargs`: translate friendly keyword arguments
to the SciPy native ones. `none` models the uncaught Python exception:
a `TypeError` when a needed parameter is missing (`kwargs.get` returned
`None`) or a `ZeroDivisionError` when a denominator is zero. -/
def interseptKwargs (name : DistName) (kwargs : List (String × ℚ)) :
    Option (List (String × PVal)) :=
  match name with
  | .uniform => do
      let l ← findKV kwargs "min"
      let r ← findKV kwargs "max"
      some [("loc", .ratV l), ("scale", .ratV (r - l))]
  | .normal => do
      let m ← findKV kwargs "mean"
      let s ← findKV kwargs "std"
      some [("loc", .ratV m), ("scale", .ratV s)]
  | .beta => do
      let a ← findKV kwargs "a"
      let b ← findKV kwargs "b"
      let l ← findKV kwargs "min"
      let r ← findKV kwargs "max"
      some [("a", .ratV a), ("b", .ratV b), ("loc", .ratV l),
            ("scale", .ratV r)]
  | .lognormal => do
      let s ← findKV kwargs "std"
      let sh ← findKV kwargs "shift"
      let m ← findKV kwargs "mean"
      some [("s", .ratV s), ("loc", .ratV sh), ("scale", .expV m)]
  | .triangular => do
      let mo ← findKV kwargs "mode"
      let l ← findKV kwargs "min"
      let r ← findKV kwargs "max"
      if r - l = 0 then none
      else some [("c", .ratV ((mo - l) / (r - l))), ("loc", .ratV l),
                 ("scale", .ratV (r - l))]
  | .truncnorm => do
      let l ← findKV kwargs "min"
      let r ← findKV kwargs "max"
      let m ← findKV kwargs "mean"
      let s ← findKV kwargs "std"
      if s = 0 then none
      else some [("a", .ratV ((l - m) / s)), ("b", .ratV ((r - m) / s)),
                 ("loc", .ratV m), ("scale", .ratV s)]

/-- The `Distribution` object. The `function` slot of the source is fully
determined by `name` (via `_init_func`) and is therefore not duplicated. -/
structure Distribution where
  name : DistName
  num_samples : Nat
  seed : SeedState
  rng : RngState
  params : List (String × ℚ)
  deriving DecidableEq, Repr

/-- Python `str.lower()` on ASCII names (the library's `String.toLower` is
implemented by well-founded recursion and does not reduce in the kernel;
this equivalent map over the character list does). -/
def pyLower (s : String) : String := String.mk (s.data.map Char.toLower)

/-- `Distribution.__init__(name, num_samples, **kwargs)`. `fresh` is the
operating-system entropy consumed by the fresh `SeedSequence()`; the error
is the `KeyError` of `_init_func` for an unsupported name. -/
def Distribution.init (nameStr : String) (num_samples : Nat) (fresh : Nat)
    (kwargs : List (String × ℚ)) : Except String Distribution :=
  match SCIPY_NAMES (pyLower nameStr) with
  | some d =>
      .ok ⟨d, num_samples, seedSeq fresh, defaultRng (seedSeq fresh), kwargs⟩
  | none => .error "Function with a corresponding name not supported yet"

/-- `Distribution.update(seed, num_samples)`: spawns one child of `seed`
(mutating the parent spawn counter) and reseeds the generator from it. -/
def Distribution.update (d : Distribution) (seed : SeedState)
    (num_samples : Nat) : Distribution × SeedState :=
  let c := spawn1 seed
  ({ d with num_samples := num_samples, seed := c.1, rng := defaultRng c.1 },
   c.2)

/-- A deterministic model of `scipy.stats.<dist>.rvs(size, random_state,
**scipy_params)`: samples and the advanced generator state are a function
of the distribution kind, the sample count, the native parameters and the
generator state. The development is parametric in this function. -/
def SampleFn : Type :=
  DistName → Nat → List (String × PVal) → RngState → List ℚ × RngState

/-- `Distribution.__call__(**kwargs)`: overwrite `params` when keyword
arguments were given (Python dict truthiness), translate them, sample.
The error covers the exceptions escaping `_intersept_kwargs`. -/
def Distribution.call (rvs : SampleFn) (d : Distribution)
    (kwargs : List (String × ℚ)) : Except String (List ℚ × Distribution) :=
  let d2 := if kwargs.isEmpty then d else { d with params := kwargs }
  match interseptKwargs d2.name d2.params with
  | none => .error "TypeError or ZeroDivisionError in _intersept_kwargs"
  | some sp =>
      let r := rvs d2.name d2.num_samples sp d2.rng
      .ok (r.1, { d2 with rng := r.2 })

/-! ## Sample values and statistics (properties.py, calculate_stats) -/

/-- A Python value held in `Property.values` or bound into a formula:
a scalar number or a NumPy sample vector. -/
inductive Value where
  | num : ℚ → Value
  | vec : List ℚ → Value
  deriving DecidableEq, Repr

/-- The list of samples a value contributes to statistics (NumPy treats a
scalar as a single-element array). -/
def Value.toL : Value → List ℚ
  | .num q => [q]
  | .vec v => v

/-- `numpy.percentile(xs, q)` with the default linear interpolation method:
sort, take the virtual index `q/100 * (n-1)` and interpolate linearly
between the two neighbouring order statistics. NumPy raises on an empty
input; the junk value 0 is returned here (claims restrict to non-empty
vectors). -/
def percentileNp (xs : List ℚ) (q : ℚ) : ℚ :=
  let s := xs.insertionSort (· ≤ ·)
  if s.isEmpty then 0
  else
    let pos : ℚ := (q / 100) * ((s.length : ℚ) - 1)
    let i : ℕ := (⌊pos⌋).toNat
    let lo := s.getD i 0
    let hi := s.getD (i + 1) lo
    lo + (pos - (i : ℚ)) * (hi - lo)

/-- The median-unbiased percentile the spec names (NumPy method
`median_unbiased`, Hyndman–Fan type 8, `alpha = beta = 1/3`): comparison
definition for the stats claim, following the spec words, not the source. -/
def percentileMedianUnbiased (xs : List ℚ) (q : ℚ) : ℚ :=
  let s := xs.insertionSort (· ≤ ·)
  if s.isEmpty then 0
  else
    let n : ℚ := (s.length : ℚ)
    let virt : ℚ := (q / 100) * (n + 1 / 3) + 1 / 3 - 1
    let pos : ℚ := max 0 (min virt (n - 1))
    let i : ℕ := (⌊pos⌋).toNat
    let lo := s.getD i 0
    let hi := s.getD (i + 1) lo
    lo + (pos - (i : ℚ)) * (hi - lo)

/-- `numpy.mean`. -/
def listMean (xs : List ℚ) : ℚ := xs.sum / (xs.length : ℚ)

/-- The square of `numpy.std` (the population variance): `np.std` itself is
a square root, which leaves the rationals, so the embedding stores its
square. -/
def listVar (xs : List ℚ) : ℚ :=
  (xs.map (fun x => (x - listMean xs) ^ 2)).sum / (xs.length : ℚ)

/-- The `Property.stats` dictionary. `stdSq` holds the square of the
`"Std"` entry (see `listVar`). -/
structure Stats where
  p90 : ℚ
  p50 : ℚ
  p10 : ℚ
  mean : ℚ
  stdSq : ℚ
  deriving DecidableEq, Repr

/-- `Property.calculate_stats` on a values payload: `P90` is the 10th
percentile, `P50` the 50th, `P10` the 90th, plus mean and (squared)
standard deviation, all via `numpy`'s defaults. -/
def statsOfValues (v : Value) : Stats :=
  let xs := v.toL
  ⟨percentileNp xs 10, percentileNp xs 50, percentileNp xs 90,
   listMean xs, listVar xs⟩

/-! ## equation_parser.py -/

/-- The binary operators `eval_binop` dispatches on; `otherBin` stands for
any `ast` operator outside its `OPERATIONS` table (e.g. `//`). -/
inductive Op where
  | addO
  | subO
  | multO
  | divO
  | powO
  | otherBin
  deriving DecidableEq, Repr

/-- Unary operators of `eval_unaryop`; `otherUn` is any operator outside
its table (only `USub` is supported). -/
inductive UOp where
  | usub
  | otherUn
  deriving DecidableEq, Repr

/-- The parsed expression tree `evaluate` walks. `constOther` is an
`ast.Constant` whose payload is not an int/float (e.g. a string), and
`unsupportedNode` is any node type outside the `EVALUATORS` table of
`eval_node` (calls, comparisons, lambdas, ...). -/
inductive Expr where
  | constant : ℚ → Expr
  | constOther : Expr
  | name : String → Expr
  | binop : Op → Expr → Expr → Expr
  | unaryop : UOp → Expr → Expr
  | unsupportedNode : Expr
  deriving DecidableEq, Repr

/-- An exception escaping a node evaluator: either a `FormulaSyntaxError`
(re-raised as-is by `evaluate`) or any other Python exception (wrapped by
`evaluate` into a `FormulaRuntimeError`). -/
inductive EvalErr where
  | fsynErr : String → EvalErr
  | pyExn : String → EvalErr
  deriving DecidableEq, Repr

/-- The error classes `evaluate` lets escape. -/
inductive FormulaError where
  | syntaxErr : String → FormulaError
  | runtimeErr : String → FormulaError
  deriving DecidableEq, Repr

/-- `eval_name`: look the identifier up with `variables.get(node.id, None)`.
A scalar is returned as a float; an array is returned when `name.all()` is
truthy (all elements non-zero), else the `Undefined variable`
`FormulaSyntaxError` is raised. When the identifier is unbound, the lookup
yields `None` and `None.all()` raises `AttributeError` — a plain Python
exception, not a `FormulaSyntaxError`. -/
def eval_name (id : String) (vars : List (String × Value)) :
    Except EvalErr Value :=
  match findKV vars id with
  | some (.num q) => .ok (.num q)
  | some (.vec v) =>
      if v.all (fun x => decide (x ≠ 0)) then .ok (.vec v)
      else .error (.fsynErr ("Undefined variable: " ++ id))
  | none =>
      .error (.pyExn "AttributeError: NoneType object has no attribute all")

/-- NumPy-style broadcasting of a scalar binary operation over the operand
shapes; a vector-vector length mismatch is a broadcast `ValueError`. -/
def broadcast (f : ℚ → ℚ → ℚ) (a b : Value) : Except EvalErr Value :=
  match a, b with
  | .num x, .num y => .ok (.num (f x y))
  | .num x, .vec v => .ok (.vec (v.map (fun y => f x y)))
  | .vec v, .num y => .ok (.vec (v.map (fun x => f x y)))
  | .vec v, .vec w =>
      if v.length = w.length then .ok (.vec (List.zipWith f v w))
      else .error (.pyExn "ValueError: operands could not be broadcast")

/-- `operator.truediv`. Scalar division by zero is a `ZeroDivisionError`.
NumPy elementwise division by zero emits a warning and produces IEEE
infinities/NaN rather than raising; those values are outside the rational
embedding and the junk value `x / 0 = 0` of `ℚ` stands in (no claim
depends on vector division by zero). -/
def applyDiv (a b : Value) : Except EvalErr Value :=
  match a, b with
  | .num x, .num y =>
      if y = 0 then .error (.pyExn "ZeroDivisionError: division by zero")
      else .ok (.num (x / y))
  | _, _ => broadcast (· / ·) a b

/-- `operator.pow` restricted to non-negative integer exponents; Python
float exponentiation otherwise produces floats/complex values outside the
rational embedding, and no claim depends on `**`. -/
def powQ (x y : ℚ) : ℚ :=
  if 0 ≤ y.num ∧ y.den = 1 then x ^ y.num.toNat else 0

/-- `operator.neg`, elementwise on arrays. -/
def negValue : Value → Value
  | .num q => .num (-q)
  | .vec v => .vec (v.map (fun x => -x))

/-- `eval_node`/`eval_expression`/`eval_constant`/`eval_binop`/
`eval_unaryop`: the recursive tree walk. `eval_binop` and `eval_unaryop`
evaluate their operands before looking the operator up, so an unsupported
operator errors only after operand evaluation, as in the source. -/
def evalNode : Expr → List (String × Value) → Except EvalErr Value
  | .constant q, _ => .ok (.num q)
  | .constOther, _ =>
      .error (.fsynErr "Literals of this type are not supported")
  | .name s, vars => eval_name s vars
  | .binop op l r, vars => do
      let lv ← evalNode l vars
      let rv ← evalNode r vars
      match op with
      | .addO => broadcast (· + ·) lv rv
      | .subO => broadcast (· - ·) lv rv
      | .multO => broadcast (· * ·) lv rv
      | .divO => applyDiv lv rv
      | .powO => broadcast powQ lv rv
      | .otherBin =>
          .error (.fsynErr "Operations of this type are not supported")
  | .unaryop u e, vars => do
      let v ← evalNode e vars
      match u with
      | .usub => .ok (negValue v)
      | .otherUn =>
          .error (.fsynErr "Operations of this type are not supported")
  | .unsupportedNode, _ => .error (.fsynErr "This syntax is not supported")

/-- The `try/except` of `evaluate` around `eval_node`: a
`FormulaSyntaxError` is re-raised as-is; any other exception is wrapped
into a `FormulaRuntimeError`. -/
def evaluateAst (node : Expr) (vars : List (String × Value)) :
    Except FormulaError Value :=
  match evalNode node vars with
  | .ok v => .ok v
  | .error (.fsynErr m) => .error (.syntaxErr m)
  | .error (.pyExn m) => .error (.runtimeErr ("Evaluation failed: " ++ m))

/-- `ast.parse(formula, "<string>", mode="eval")`, kept abstract: the
development is parametric in the parser, which returns the expression tree
or a syntax-error message. -/
def ParseFn : Type := String → Except String Expr

def MAX_FORMULA_LENGTH : Nat := 255

/-- `evaluate(formula, variables)`: length guard, parse, evaluate. -/
def evaluate (parse : ParseFn) (formula : String)
    (vars : List (String × Value)) : Except FormulaError Value :=
  if formula.length > MAX_FORMULA_LENGTH then
    .error (.syntaxErr "The formula is too long")
  else
    match parse formula with
    | .error m => .error (.syntaxErr ("Could not parse: " ++ m))
    | .ok node => evaluateAst node vars

/-! ## properties.py -/

/-- The `Property` object (slots `name`, `prop_type`, `distribution`,
`equation`, `values`, `stats`). `values` starts as the scalar `0`; `stats`
starts as the empty dict (`none` here). -/
structure Property where
  name : String
  prop_type : String
  distribution : Option Distribution
  equation : Option String
  values : Value
  stats : Option Stats
  deriving DecidableEq, Repr

/-- `Property.__init__(name, distribution, equation, **kwargs)`.
A given (truthy) `distribution` wins: the property becomes an input and
the `equation` argument is ignored (`self.equation` stays `None`); with no
distribution, a given `equation` makes a result; with neither, `ValueError
("Invalid property type")` is raised. `fresh` is the entropy the fresh
`SeedSequence()` inside `Distribution.__init__` consumes. -/
def Property.init (name : String) (distribution : Option String)
    (equation : Option String) (num_samples : Nat)
    (kwargs : List (String × ℚ)) (fresh : Nat) : Except String Property :=
  match distribution with
  | some dn => do
      let d ← Distribution.init dn num_samples fresh kwargs
      .ok ⟨name, "input", some d, none, .num 0, none⟩
  | none =>
      match equation with
      | some eq => .ok ⟨name, "result", none, some eq, .num 0, none⟩
      | none => .error "Invalid property type"

/-- `Property.__add__` (the `Property`-operand branch): constructs the
combined property via `Property(f"({a} + {b})")` — with neither a
distribution nor an equation — and would then fill `values` with the
elementwise sum. -/
def Property.add (self other : Property) : Except String Property := do
  let newP ← Property.init ("(" ++ self.name ++ " + " ++ other.name ++ ")")
      none none 10000 [] 0
  match broadcast (· + ·) self.values other.values with
  | .ok v => .ok { newP with values := v }
  | .error _ => .error "ValueError: operands could not be broadcast"

/-- `Property.__sub__` (the `Property`-operand branch). -/
def Property.sub (self other : Property) : Except String Property := do
  let newP ← Property.init ("(" ++ self.name ++ " - " ++ other.name ++ ")")
      none none 10000 [] 0
  match broadcast (· - ·) self.values other.values with
  | .ok v => .ok { newP with values := v }
  | .error _ => .error "ValueError: operands could not be broadcast"

/-- `Property.__mul__` (the `Property`-operand branch). -/
def Property.mul (self other : Property) : Except String Property := do
  let newP ← Property.init ("(" ++ self.name ++ " * " ++ other.name ++ ")")
      none none 10000 [] 0
  match broadcast (· * ·) self.values other.values with
  | .ok v => .ok { newP with values := v }
  | .error _ => .error "ValueError: operands could not be broadcast"

/-- `Property.__truediv__` (the `Property`-operand branch). -/
def Property.div (self other : Property) : Except String Property := do
  let newP ← Property.init ("(" ++ self.name ++ " / " ++ other.name ++ ")")
      none none 10000 [] 0
  match applyDiv self.values other.values with
  | .ok v => .ok { newP with values := v }
  | .error _ => .error "ZeroDivisionError or broadcast error"

/-- `Property.__neg__`. -/
def Property.neg (self : Property) : Except String Property := do
  let newP ← Property.init ("(-" ++ self.name ++ ")") none none 10000 [] 0
  .ok { newP with values := negValue self.values }

/-- Extract numeric keyword arguments for the sampling path of
`run_calculation`; `Model.run` always passes the numeric parameter
sub-dict of the config there, so array-valued entries never occur on this
path. -/
def kwargsToParams : List (String × Value) → Option (List (String × ℚ))
  | [] => some []
  | (k, .num q) :: rest => (kwargsToParams rest).map ((k, q) :: ·)
  | (_, .vec _) :: _ => none

/-- A `FormulaError` escaping `Property._evaluate_equation`, rendered as
the exception text that propagates out of `Model.run`. -/
def FormulaError.text : FormulaError → String
  | .syntaxErr m => "FormulaSyntaxError: " ++ m
  | .runtimeErr m => "FormulaRuntimeError: " ++ m

/-- `Property.run_calculation(**kwargs)`: inputs sample from their
distribution (the kwargs are distribution parameters), results evaluate
their equation (the kwargs are variable bindings); either way
`calculate_stats` then fills `stats` from the new `values`. -/
def Property.run_calculation (rvs : SampleFn) (parse : ParseFn)
    (self : Property) (kwargs : List (String × Value)) :
    Except String Property := do
  let p2 ←
    if self.prop_type = "input" then
      match self.distribution with
      | none => Except.error "TypeError: NoneType object is not callable"
      | some d =>
          match kwargsToParams kwargs with
          | none => Except.error "array-valued distribution parameter"
          | some ps =>
              match Distribution.call rvs d ps with
              | .error e => Except.error e
              | .ok r =>
                  Except.ok { self with distribution := some r.2,
                                        values := .vec r.1 }
    else Except.ok self
  let p3 ←
    if p2.prop_type = "result" then
      match p2.equation with
      | none => Except.error "TypeError: object of type NoneType has no len"
      | some eq =>
          match evaluate parse eq kwargs with
          | .error fe => Except.error fe.text
          | .ok v => Except.ok { p2 with values := v }
    else Except.ok p2
  .ok { p3 with stats := some (statsOfValues p3.values) }

/-! ## regions.py -/

/-- The `Region` object. -/
structure Region where
  name : String
  composition : Option String
  inputs : List (String × Property)
  results : List (String × Property)
  deriving DecidableEq, Repr

/-- `Region.__contains__`: a name present among inputs or results. -/
def Region.contains_name (r : Region) (nm : String) : Bool :=
  (findKV r.inputs nm).isSome || (findKV r.results nm).isSome

/-- `Region.add_properties(*props)`: one loop iteration per property —
duplicate check first, then routing on `prop_type`. The region mutates as
the loop advances, so on an error the properties already processed stay
inserted; the mutated region is returned together with the error. -/
def Region.add_properties : Region → List Property → Region × Option String
  | r, [] => (r, none)
  | r, p :: rest =>
    if r.contains_name p.name then
      (r, some ("Encountered duplicate Property " ++ p.name ++
                " in Region " ++ r.name))
    else if p.prop_type = "input" then
      Region.add_properties { r with inputs := r.inputs ++ [(p.name, p)] }
        rest
    else if p.prop_type = "result" then
      Region.add_properties { r with results := r.results ++ [(p.name, p)] }
        rest
    else (r, some "Invalid Property type")

/-- The loop of `Region.update_properties`: reseed every input property in
insertion order by spawning one child of `seed` each, threading the parent
spawn counter; also returns the list of child seeds handed out, in order.
A missing distribution would raise `AttributeError` in Python; input
properties always carry one, so the embedding skips such a property. -/
def updateInputsSeeds : List (String × Property) → SeedState → Nat →
    List (String × Property) × SeedState × List SeedState
  | [], s, _ => ([], s, [])
  | (pn, p) :: rest, s, n =>
    match p.distribution with
    | some d =>
        let u := Distribution.update d s n
        let r2 := updateInputsSeeds rest u.2 n
        ((pn, { p with distribution := some u.1 }) :: r2.1, r2.2.1,
         u.1.seed :: r2.2.2)
    | none =>
        let r2 := updateInputsSeeds rest s n
        ((pn, p) :: r2.1, r2.2.1, r2.2.2)

/-- `Region.update_properties(seed, num_samples)`. -/
def Region.update_properties (r : Region) (s : SeedState) (n : Nat) :
    Region × SeedState × List SeedState :=
  let u := updateInputsSeeds r.inputs s n
  ({ r with inputs := u.1 }, u.2.1, u.2.2)

/-- `Region.get_properties("values", include="inputs", variable_key=True)`
as used by `Model.run`: every `Property` has the `values` slot, so the
`hasattr` guard passes, and the key `prop.variable` is then read — but
`Property` has no `variable` slot, so the first input property raises
`AttributeError`; only a region without inputs yields the empty dict. -/
def Region.values_by_variable (r : Region) :
    Except String (List (String × Value)) :=
  if r.inputs.isEmpty then .ok []
  else .error "AttributeError: Property object has no attribute variable"

/-! ## models.py -/

/-- The `Model` object. -/
structure Model where
  name : String
  seed : SeedState
  num_samples : Nat
  results : List (String × Value)
  regions : List (String × Region)
  deriving DecidableEq, Repr

/-- `Model.__init__(name, seed, num_samples)`: `SeedSequence(seed)`; a
`None` seed draws the operating-system entropy `fresh`. -/
def Model.init (name : String) (seed : Option Nat) (fresh : Nat)
    (num_samples : Nat) : Model :=
  ⟨name, seedSeq (seed.getD fresh), num_samples, [], []⟩

/-- The loop inside `Model.add_regions`: reseed every input property of the
region being added (spawning children of the model seed, whose counter
threads through) and reset its `values` to the scalar `0`. -/
def updateInputsReset : List (String × Property) → SeedState → Nat →
    List (String × Property) × SeedState
  | [], s, _ => ([], s)
  | (pn, p) :: rest, s, n =>
    match p.distribution with
    | some d =>
        let u := Distribution.update d s n
        let r2 := updateInputsReset rest u.2 n
        ((pn, { p with distribution := some u.1, values := .num 0 }) :: r2.1,
         r2.2)
    | none =>
        -- Python would raise AttributeError here (unreachable for regions
        -- whose inputs were built by Property.init)
        let r2 := updateInputsReset rest s n
        ((pn, p) :: r2.1, r2.2)

/-- `Model.add_regions(*regions)`: per region — duplicate-name check, then
reseed/reset its inputs, then insert. Mutations performed before a raised
duplicate error remain, as in the source. -/
def Model.add_regions : Model → List Region → Model × Option String
  | m, [] => (m, none)
  | m, r :: rest =>
    if (findKV m.regions r.name).isSome then
      (m, some ("Encountered duplicate Region " ++ r.name ++ " in Model " ++
                m.name))
    else
      let u := updateInputsReset r.inputs m.seed m.num_samples
      let r2 := { r with inputs := u.1 }
      Model.add_regions
        { m with seed := u.2, regions := m.regions ++ [(r.name, r2)] } rest

/-- Replace the value stored under an existing key (Python mutates the
`Region` object found by the preceding lookup in place). -/
def setKV {α : Type} : List (String × α) → String → α → List (String × α)
  | [], _, _ => []
  | (k2, v2) :: rest, k, v =>
    if k2 = k then (k, v) :: rest else (k2, v2) :: setKV rest k v

/-- The positional-argument loop of `Model.add_properties`: for every
region of the model, `region.add_properties(*deepcopy(args))` then
`region.update_properties(self.seed, self.num_samples)`; the model seed
threads through, and the child seeds handed out are logged in order. An
error aborts the loop, keeping the mutations made so far. -/
def addToAllRegions : List (String × Region) → List Property → SeedState →
    Nat → (List (String × Region) × SeedState × List SeedState) ×
          Option String
  | [], _, s, _ => (([], s, []), none)
  | (rn, r) :: rest, args, s, n =>
    let a := Region.add_properties r args
    match a.2 with
    | some e => (((rn, a.1) :: rest, s, []), some e)
    | none =>
        let u := Region.update_properties a.1 s n
        match addToAllRegions rest args u.2.1 n with
        | (res, err) =>
            (((rn, u.1) :: res.1, res.2.1, u.2.2 ++ res.2.2), err)

/-- The keyword-argument loop of `Model.add_properties`: per entry, look
the region up (a missing name is a `KeyError`), add the properties, reseed
that region's inputs. -/
def addToNamedRegions : List (String × Region) →
    List (String × List Property) → SeedState → Nat → String →
    (List (String × Region) × SeedState × List SeedState) × Option String
  | regs, [], s, _, _ => ((regs, s, []), none)
  | regs, (rn, props) :: rest, s, n, mname =>
    match findKV regs rn with
    | none =>
        ((regs, s, []), some ("Region " ++ rn ++ " not found in Model " ++
                              mname))
    | some r =>
        let a := Region.add_properties r props
        match a.2 with
        | some e => ((setKV regs rn a.1, s, []), some e)
        | none =>
            let u := Region.update_properties a.1 s n
            match addToNamedRegions (setKV regs rn u.1) rest u.2.1 n mname
              with
            | (res, err) => ((res.1, res.2.1, u.2.2 ++ res.2.2), err)

/-- `Model.add_properties(*props_args, **props_kwargs)`: first the model
seed is replaced by `SeedSequence(self.seed.entropy)` (spawn counter back
to zero), then the positional loop runs over all regions (when positional
arguments were given), then the keyword loop (when keyword arguments were
given). Besides the updated model, the list of child seeds handed out by
the reseeding, in order, is returned. -/
def Model.add_properties (m : Model) (args : List Property)
    (kwargs : List (String × List Property)) :
    (Model × List SeedState) × Option String :=
  let m0 : Model := { m with seed := seedSeq m.seed.entropy }
  let stepA :=
    if args.isEmpty then ((m0.regions, m0.seed, ([] : List SeedState)),
                          (none : Option String))
    else addToAllRegions m0.regions args m0.seed m0.num_samples
  match stepA with
  | ((regs1, s1, tr1), some e) =>
      ((⟨m0.name, s1, m0.num_samples, m0.results, regs1⟩, tr1), some e)
  | ((regs1, s1, tr1), none) =>
      let stepB :=
        if kwargs.isEmpty then ((regs1, s1, ([] : List SeedState)),
                                (none : Option String))
        else addToNamedRegions regs1 kwargs s1 m0.num_samples m0.name
      match stepB with
      | ((regs2, s2, tr2), err) =>
          ((⟨m0.name, s2, m0.num_samples, m0.results, regs2⟩, tr1 ++ tr2),
           err)

/-- The parameter-name set a property's distribution requires
(`DISTRIBUTIONS_KWARGS[prop.distribution.name]`). -/
def requiredKwargs (p : Property) : List String :=
  match p.distribution with
  | some d => DISTRIBUTIONS_KWARGS d.name
  | none => []

/-- `Model.make_config(user_input=False)`: Region → input Property →
required parameter-name set (the interactive branch is out of scope). -/
def Model.make_config (m : Model) : List (String × List (String ×
    List String)) :=
  m.regions.map (fun rkv =>
    (rkv.1, rkv.2.inputs.map (fun pkv => (pkv.1, requiredKwargs pkv.2))))

/-- A run configuration: Region → Property → parameter name → value. -/
abbrev Config : Type := List (String × List (String × List (String × ℚ)))

/-- `Model.check_config(config)`: replace every parameter dict of a copy of
`config` by its key set and compare, with Python `==`, against
`make_config(user_input=False)`. -/
def Model.check_config (m : Model) (config : Config) : Bool :=
  dictBeq (fun rc rm => dictBeq (fun pc pm => setEqS (pc.map Prod.fst) pm)
    rc rm) config m.make_config

/-- The inputs loop of `Model.run` for one region:
`prop.run_calculation(**config[reg_name][prop_name])`. -/
def runInputs (rvs : SampleFn) (parse : ParseFn) :
    List (String × Property) → List (String × List (String × ℚ)) →
    Except String (List (String × Property))
  | [], _ => .ok []
  | (pn, p) :: rest, cfgR => do
      match findKV cfgR pn with
      | none => Except.error ("KeyError: " ++ pn)
      | some params => do
          let p2 ← Property.run_calculation rvs parse p
            (params.map (fun kv => (kv.1, Value.num kv.2)))
          let rest2 ← runInputs rvs parse rest cfgR
          .ok ((pn, p2) :: rest2)

/-- The results loop of `Model.run` for one region: each iteration binds
`reg.get_properties("values", include="inputs", variable_key=True)` and
runs the result property's calculation on it. -/
def runResults (rvs : SampleFn) (parse : ParseFn) (r : Region) :
    List (String × Property) → Except String (List (String × Property))
  | [] => .ok []
  | (pn, p) :: rest => do
      let bindings ← r.values_by_variable
      let p2 ← Property.run_calculation rvs parse p bindings
      let rest2 ← runResults rvs parse r rest
      .ok ((pn, p2) :: rest2)

/-- The region loop of `Model.run`: inputs of a region are fully sampled
before its results are evaluated. -/
def runRegions (rvs : SampleFn) (parse : ParseFn) :
    List (String × Region) → Config →
    Except String (List (String × Region))
  | [], _ => .ok []
  | (rn, r) :: rest, config => do
      match findKV config rn with
      | none => Except.error ("KeyError: " ++ rn)
      | some cfgR => do
          let inputs2 ← runInputs rvs parse r.inputs cfgR
          let r2 : Region := { r with inputs := inputs2 }
          let results2 ← runResults rvs parse r2 r2.results
          let rest2 ← runRegions rvs parse rest config
          .ok ((rn, { r2 with results := results2 }) :: rest2)

/-- `Model.run(config)`: `check_config` gate (a failure is the `KeyError`
of the source), then the region loop. -/
def Model.run (rvs : SampleFn) (parse : ParseFn) (m : Model)
    (config : Config) : Except String Model :=
  if m.check_config config then
    match runRegions rvs parse m.regions config with
    | .error e => .error e
    | .ok regs => .ok { m with regions := regs }
  else .error "Invalid key is present or a key is missing in the config"

/-! ## A canonical build: properties → regions → model

The build mirrors the intended workflow of the source (construct the
properties, `Region.add_properties`, `Model.add_regions`). The stream
`ent : Nat → Nat` models the operating-system entropy drawn by each
`SeedSequence()` inside `Distribution.__init__`; property `i` of region
`j` consumes `ent (Nat.pair j i)`. -/

/-- Construction arguments of one `Property`. -/
structure PropSpec where
  name : String
  distribution : Option String
  equation : Option String
  num_samples : Nat
  kwargs : List (String × ℚ)
  deriving DecidableEq, Repr

/-- Construction arguments of one `Region` and its properties. -/
structure RegionSpec where
  name : String
  composition : Option String
  props : List PropSpec
  deriving DecidableEq, Repr

/-- Construct the properties of one region, consuming one entropy each. -/
def buildProps : List PropSpec → (Nat → Nat) → Nat →
    Except String (List Property)
  | [], _, _ => .ok []
  | sp :: rest, ent, i => do
      let p ← Property.init sp.name sp.distribution sp.equation
        sp.num_samples sp.kwargs (ent i)
      let ps ← buildProps rest ent (i + 1)
      .ok (p :: ps)

/-- Construct one region and add its properties. -/
def buildRegion (spec : RegionSpec) (ent : Nat → Nat) :
    Except String Region := do
  let ps ← buildProps spec.props ent 0
  let a := Region.add_properties ⟨spec.name, spec.composition, [], []⟩ ps
  match a.2 with
  | some e => Except.error e
  | none => .ok a.1

/-- Construct the regions of a model. -/
def buildRegions : List RegionSpec → (Nat → Nat) → Nat →
    Except String (List Region)
  | [], _, _ => .ok []
  | sp :: rest, ent, j => do
      let r ← buildRegion sp (fun i => ent (Nat.pair j i))
      let rs ← buildRegions rest ent (j + 1)
      .ok (r :: rs)

/-- Build a model from root seed `S`, sample count `N` and an insertion
sequence of region specifications, then attach the regions with
`Model.add_regions`. -/
def buildModel (name : String) (S : Nat) (N : Nat)
    (specs : List RegionSpec) (ent : Nat → Nat) : Except String Model := do
  let rs ← buildRegions specs ent 0
  let a := Model.add_regions (Model.init name (some S) 0 N) rs
  match a.2 with
  | some e => Except.error e
  | none => .ok a.1

/-! ## Shared concrete objects used by witnesses and counterexamples -/

/-- A small concrete input property (uniform distribution). -/
def mkInputProp (nm : String) : Property :=
  ⟨nm, "input",
   some ⟨.uniform, 10, seedSeq 1, defaultRng (seedSeq 1), []⟩,
   none, .num 0, none⟩

/-- A small concrete result property. -/
def mkResultProp (nm eq : String) : Property :=
  ⟨nm, "result", none, some eq, .num 0, none⟩

/-- A region already holding the input property `"a"`. -/
def regK : Region := ⟨"R", none, [("a", mkInputProp "a")], []⟩

/-! ## Claims -/

/-- C7: the friendly-to-native translation follows the table:
`uniform(min=2, max=5)` gives `{loc: 2, scale: 3}` and
`triangular(mode=3, min=1, max=5)` gives `{c: 0.5, loc: 1, scale: 4}`;
in general `uniform` maps to `loc = min, scale = max - min` and
`triangular` to `c = (mode - min)/(max - min), loc = min,
scale = max - min`. -/
theorem C7_distribution_param_translation :
    interseptKwargs .uniform [("min", 2), ("max", 5)] =
      some [("loc", .ratV 2), ("scale", .ratV 3)]
    ∧ interseptKwargs .triangular [("mode", 3), ("min", 1), ("max", 5)] =
      some [("c", .ratV (1 / 2)), ("loc", .ratV 1), ("scale", .ratV 4)]
    ∧ (∀ mi ma : ℚ,
        interseptKwargs .uniform [("min", mi), ("max", ma)] =
          some [("loc", .ratV mi), ("scale", .ratV (ma - mi))])
    ∧ (∀ mo mi ma : ℚ, mi ≠ ma →
        interseptKwargs .triangular
            [("mode", mo), ("min", mi), ("max", ma)] =
          some [("c", .ratV ((mo - mi) / (ma - mi))), ("loc", .ratV mi),
                ("scale", .ratV (ma - mi))]) := by
  refine ⟨by simp [interseptKwargs, findKV]; norm_num,
          by simp [interseptKwargs, findKV]; norm_num,
          fun mi ma => rfl, fun mo mi ma h => ?_⟩
  have hne : ¬ (ma - mi = 0) := sub_ne_zero.mpr (Ne.symm h)
  simp [interseptKwargs, findKV, hne]

/-- Witness for C7: the general triangular clause at `mode=4, min=1,
max=5`. -/
theorem C7_distribution_param_translation_witness :
    interseptKwargs .triangular [("mode", 4), ("min", 1), ("max", 5)] =
      some [("c", .ratV ((4 - 1) / (5 - 1))), ("loc", .ratV 1),
            ("scale", .ratV (5 - 1))] :=
  C7_distribution_param_translation.2.2.2 4 1 5 (by norm_num)

/-- Counterexample to C6: supplying both a distribution and an equation
does not raise — `Property.__init__` takes the distribution branch and
succeeds, leaving `equation` unset. -/
theorem C6_both_supplied_succeeds :
    Property.init "x" (some "normal") (some "a + b") 10000 [("mean", 0)] 7 =
      .ok ⟨"x", "input",
           some ⟨.normal, 10000, seedSeq 7, defaultRng (seedSeq 7),
                 [("mean", 0)]⟩,
           none, .num 0, none⟩ := by
  rfl

/-- C6 (amended): supplying neither a distribution nor an equation raises
`ValueError("Invalid property type")`; supplying a (supported)
distribution — with or without an equation — succeeds, producing an input
property whose `equation` stays unset; supplying only an equation succeeds
as a result property. -/
theorem C6_exactly_one_amended :
    (∀ (nm : String) (nS : Nat) (kw : List (String × ℚ)) (f : Nat),
      Property.init nm none none nS kw f = .error "Invalid property type")
    ∧ (∀ (nm dn : String) (eq : Option String) (nS : Nat)
        (kw : List (String × ℚ)) (f : Nat),
        SCIPY_NAMES (pyLower dn) ≠ none →
        ∃ p, Property.init nm (some dn) eq nS kw f = .ok p
          ∧ p.prop_type = "input" ∧ p.equation = none)
    ∧ (∀ (nm eq : String) (nS : Nat) (kw : List (String × ℚ)) (f : Nat),
        ∃ p, Property.init nm none (some eq) nS kw f = .ok p
          ∧ p.prop_type = "result" ∧ p.equation = some eq) := by
  refine ⟨fun nm nS kw f => rfl, ?_, fun nm eq nS kw f => ⟨_, rfl, rfl, rfl⟩⟩
  intro nm dn eq nS kw f h
  match hs : SCIPY_NAMES (pyLower dn) with
  | none => exact absurd hs h
  | some d =>
      refine ⟨⟨nm, "input", some ⟨d, nS, seedSeq f, defaultRng (seedSeq f),
                                  kw⟩, none, .num 0, none⟩, ?_, rfl, rfl⟩
      have hd : Distribution.init dn nS f kw =
          .ok ⟨d, nS, seedSeq f, defaultRng (seedSeq f), kw⟩ := by
        simp [Distribution.init, hs]
      simp only [Property.init, hd]
      rfl

/-- Witness for C6 (amended): the distribution clause at a concrete
supported name (including the `lower()` normalisation). -/
theorem C6_exactly_one_amended_witness :
    ∃ p, Property.init "poro" (some "Normal") (some "x + y") 1000 [] 3 =
        .ok p ∧ p.prop_type = "input" ∧ p.equation = none :=
  C6_exactly_one_amended.2.1 "poro" "Normal" (some "x + y") 1000 [] 3
    (by decide)

/-- C5: every arithmetic operator overload of `Property` constructs the
combined property via `Property(name)` with neither a distribution nor an
equation, which `Property.__init__` rejects — so `p + q`, `p - q`,
`p * q`, `p / q` and `-p` all raise `ValueError("Invalid property type")`
instead of returning the elementwise combination. -/
theorem C5_operator_overloads_raise :
    Property.add (mkInputProp "a") (mkInputProp "b") =
      .error "Invalid property type"
    ∧ Property.sub (mkInputProp "a") (mkInputProp "b") =
      .error "Invalid property type"
    ∧ Property.mul (mkInputProp "a") (mkInputProp "b") =
      .error "Invalid property type"
    ∧ Property.div (mkInputProp "a") (mkInputProp "b") =
      .error "Invalid property type"
    ∧ Property.neg (mkInputProp "a") = .error "Invalid property type" :=
  ⟨rfl, rfl, rfl, rfl, rfl⟩

/-- C4: `evaluate("und", {})` does not raise the undefined-variable
`FormulaSyntaxError`: `eval_name` looks `und` up with
`variables.get("und", None)`, obtains `None`, and `None.all()` raises
`AttributeError`, which the `except Exception` clause of `evaluate` wraps
into a `FormulaRuntimeError`. -/
theorem C4_undefined_variable_is_runtime_error :
    (evaluateAst (Expr.name "und") [] =
      .error (.runtimeErr
        "Evaluation failed: AttributeError: NoneType object has no attribute all"))
    ∧ ∀ parse : ParseFn, parse "und" = .ok (Expr.name "und") →
        evaluate parse "und" [] =
          .error (.runtimeErr
            "Evaluation failed: AttributeError: NoneType object has no attribute all") := by
  refine ⟨rfl, fun parse hp => ?_⟩
  simp only [evaluate, hp]
  rfl

/-- Witness for C4: a parser returning the `und` name node. -/
theorem C4_undefined_variable_is_runtime_error_witness :
    evaluate (fun _ => .ok (Expr.name "und")) "und" [] =
      .error (.runtimeErr
        "Evaluation failed: AttributeError: NoneType object has no attribute all") :=
  C4_undefined_variable_is_runtime_error.2 (fun _ => .ok (Expr.name "und"))
    rfl

/-- C9: evaluating a formula that references a variable bound to a numeric
vector raises the `Undefined variable` `FormulaSyntaxError` whenever the
vector contains a zero element (`name.all()` is falsy), and returns the
vector only when every element is non-zero. -/
theorem C9_zero_element_vector_raises :
    ∀ (x : String) (d : List (String × Value)) (v : List ℚ),
      findKV d x = some (.vec v) →
      ((∃ z ∈ v, z = 0) →
        evaluateAst (Expr.name x) d =
          .error (.syntaxErr ("Undefined variable: " ++ x)))
      ∧ ((∀ z ∈ v, z ≠ 0) → evaluateAst (Expr.name x) d = .ok (.vec v)) := by
  intro x d v h
  by_cases hall : v.all (fun y => decide (y ≠ 0)) = true
  · constructor
    · rintro ⟨z, hz, hz0⟩
      simp only [List.all_eq_true, decide_eq_true_iff] at hall
      exact absurd hz0 (hall z hz)
    · intro _
      simp only [evaluateAst, evalNode, eval_name, h]
      rw [if_pos hall]
  · constructor
    · intro _
      simp only [evaluateAst, evalNode, eval_name, h]
      rw [if_neg hall]
    · intro hnz
      exact absurd (by simpa [List.all_eq_true] using hnz) hall

/-- Witness for C9: both clauses at concrete bindings. -/
theorem C9_zero_element_vector_raises_witness :
    evaluateAst (Expr.name "x") [("x", Value.vec [1, 0])] =
      .error (.syntaxErr ("Undefined variable: " ++ "x"))
    ∧ evaluateAst (Expr.name "y") [("y", Value.vec [2, 3])] =
      .ok (.vec [2, 3]) :=
  ⟨(C9_zero_element_vector_raises "x" [("x", Value.vec [1, 0])] [1, 0]
      rfl).1 ⟨0, by norm_num, rfl⟩,
   (C9_zero_element_vector_raises "y" [("y", Value.vec [2, 3])] [2, 3]
      rfl).2 (by norm_num)⟩

/-- Counterexample to C2: on the vector `[0, 1]` the computed `P90` is the
10th percentile under NumPy's default linear interpolation (`1/10`), while
the median-unbiased 10th percentile of the same vector is `0` — the
claimed interpolation method is not the one the code uses. -/
theorem C2_not_median_unbiased :
    (statsOfValues (Value.vec [0, 1])).p90 = 1 / 10
    ∧ percentileMedianUnbiased [0, 1] 10 = 0
    ∧ (statsOfValues (Value.vec [0, 1])).p90 ≠
        percentileMedianUnbiased [0, 1] 10 := by
  refine ⟨?_, ?_, ?_⟩ <;>
    norm_num [statsOfValues, Value.toL, percentileNp,
              percentileMedianUnbiased, List.insertionSort,
              List.orderedInsert, List.getD]

/-- Linear interpolation of a sample vector at the virtual index `pos`:
statement-side characterization used by the amended stats claim (NumPy's
default percentile method evaluates this on the sorted vector at
`pos = q/100 * (n - 1)`). -/
def interpAt (v : List ℚ) (pos : ℚ) : ℚ :=
  let i : ℕ := (⌊pos⌋).toNat
  let lo := v.getD i 0
  let hi := v.getD (i + 1) lo
  lo + (pos - (i : ℚ)) * (hi - lo)

/-- C2 (amended): for a non-empty sample vector, `stats["P90"]` is the
value at the 10th percentile, `stats["P50"]` at the 50th and `stats["P10"]`
at the 90th, each computed with NumPy's default linear percentile
interpolation (not the median-unbiased method): stated on an
already-sorted vector, the stats are the linear interpolation of the
vector itself at the virtual indices `q/100 * (n-1)`. -/
theorem C2_stats_inverted_convention_linear :
    ∀ v : List ℚ, v.Sorted (· ≤ ·) → v ≠ [] →
      (statsOfValues (Value.vec v)).p90 =
        interpAt v ((10 / 100) * ((v.length : ℚ) - 1))
      ∧ (statsOfValues (Value.vec v)).p50 =
        interpAt v ((50 / 100) * ((v.length : ℚ) - 1))
      ∧ (statsOfValues (Value.vec v)).p10 =
        interpAt v ((90 / 100) * ((v.length : ℚ) - 1)) := by
  intro v hs hv
  have hsort : v.insertionSort (· ≤ ·) = v := hs.insertionSort_eq
  have hne : v.isEmpty = false := by
    cases v with
    | nil => exact absurd rfl hv
    | cons a l => rfl
  refine ⟨?_, ?_, ?_⟩ <;>
    simp only [statsOfValues, Value.toL, percentileNp, hsort, hne,
               Bool.false_eq_true, if_false, interpAt]

/-- Witness for C2 (amended): the sorted vector `[1, 2, 3]`. -/
theorem C2_stats_inverted_convention_linear_witness :
    (statsOfValues (Value.vec [1, 2, 3])).p90 =
      interpAt [1, 2, 3] ((10 / 100) * (((3 : Nat) : ℚ) - 1))
    ∧ (statsOfValues (Value.vec [1, 2, 3])).p50 =
      interpAt [1, 2, 3] ((50 / 100) * (((3 : Nat) : ℚ) - 1))
    ∧ (statsOfValues (Value.vec [1, 2, 3])).p10 =
      interpAt [1, 2, 3] ((90 / 100) * (((3 : Nat) : ℚ) - 1)) :=
  C2_stats_inverted_convention_linear [1, 2, 3]
    (by norm_num [List.sorted_cons]) (by simp)

/-- Counterexample to C8: a duplicate among later arguments does not leave
the region unmodified — `add_properties` on a region holding `"a"`, called
with `(b, a)`, raises on `a` but keeps `b` inserted. -/
theorem C8_partial_insert_counterexample :
    (Region.add_properties regK [mkInputProp "b", mkInputProp "a"]).2.isSome
      = true
    ∧ (Region.add_properties regK [mkInputProp "b", mkInputProp "a"]).1 ≠
        regK := by
  constructor
  · rfl
  · intro hcontra
    have : (Region.add_properties regK
        [mkInputProp "b", mkInputProp "a"]).1.inputs.length =
        regK.inputs.length := by rw [hcontra]
    simp [Region.add_properties, regK, mkInputProp, Region.contains_name,
          findKV] at this

/-- C8 (amended): when `Region.add_properties` (resp. `Model.add_regions`)
fails on a duplicate name, the properties (resp. regions) preceding the
first duplicate remain inserted and the failing one and all later ones are
not: the failed call returns exactly the state reached after the
successful prefix, together with the duplicate-name error. -/
theorem C8_duplicate_leaves_prefix_inserted :
    (∀ (r : Region) (pre : List Property) (p : Property)
        (post : List Property),
      (Region.add_properties r pre).2 = none →
      (Region.add_properties r pre).1.contains_name p.name = true →
      Region.add_properties r (pre ++ p :: post) =
        ((Region.add_properties r pre).1,
         some ("Encountered duplicate Property " ++ p.name ++
               " in Region " ++ (Region.add_properties r pre).1.name)))
    ∧ (∀ (m : Model) (pre : List Region) (r : Region) (post : List Region),
      (Model.add_regions m pre).2 = none →
      (findKV (Model.add_regions m pre).1.regions r.name).isSome = true →
      Model.add_regions m (pre ++ r :: post) =
        ((Model.add_regions m pre).1,
         some ("Encountered duplicate Region " ++ r.name ++ " in Model " ++
               (Model.add_regions m pre).1.name))) := by
  constructor
  · intro r pre p post h1 h2
    induction pre generalizing r with
    | nil =>
      simp only [Region.add_properties] at h1 h2 ⊢
      simp [Region.add_properties, h2]
    | cons q pre ih =>
      by_cases hc : r.contains_name q.name
      · simp [Region.add_properties, hc] at h1
      · by_cases hin : q.prop_type = "input"
        · simp only [List.cons_append, Region.add_properties, hc,
                     Bool.false_eq_true, if_false, hin, if_true] at h1 h2 ⊢
          exact ih _ h1 h2
        · by_cases hres : q.prop_type = "result"
          · simp only [List.cons_append, Region.add_properties, hc,
                       Bool.false_eq_true, if_false, hin, hres,
                       if_true] at h1 h2 ⊢
            exact ih _ h1 h2
          · simp [Region.add_properties, hc, hin, hres] at h1
  · intro m pre r post h1 h2
    induction pre generalizing m with
    | nil =>
      simp only [Model.add_regions] at h1 h2 ⊢
      simp [Model.add_regions, h2]
    | cons q pre ih =>
      by_cases hc : (findKV m.regions q.name).isSome
      · simp [Model.add_regions, hc] at h1
      · simp only [List.cons_append, Model.add_regions, hc,
                   Bool.false_eq_true, if_false] at h1 h2 ⊢
        exact ih _ h1 h2

/-- Witness for C8 (amended): the concrete failed call on `regK`. -/
theorem C8_duplicate_leaves_prefix_inserted_witness :
    Region.add_properties regK
        ([mkInputProp "b"] ++ mkInputProp "a" :: []) =
      ((Region.add_properties regK [mkInputProp "b"]).1,
       some ("Encountered duplicate Property " ++ (mkInputProp "a").name ++
             " in Region " ++
             (Region.add_properties regK [mkInputProp "b"]).1.name)) :=
  C8_duplicate_leaves_prefix_inserted.1 regK [mkInputProp "b"]
    (mkInputProp "a") [] rfl rfl

/-- C3: `check_config` returns `True` exactly when the config maps the
model's regions (same key set), each region exactly to its input
properties (same key set), and each property to a parameter dict whose key
set equals the friendly-parameter set its distribution kind requires;
parameter values are never inspected (the right-hand side constrains only
key sets). The `Nodup` hypotheses state that the config levels are Python
dicts (duplicate-free keys). -/
theorem C3_check_config_exact_keys :
    ∀ (m : Model) (c : Config),
      (c.map Prod.fst).Nodup →
      (∀ rc ∈ c, (rc.2.map Prod.fst).Nodup) →
      (Model.check_config m c = true ↔
        ((∀ rn, (findKV c rn).isSome ↔ (findKV m.regions rn).isSome)
         ∧ ∀ rn rc r, findKV c rn = some rc →
             findKV m.regions rn = some r →
             ((∀ pn, (findKV rc pn).isSome ↔ (findKV r.inputs pn).isSome)
              ∧ ∀ pn pc p, findKV rc pn = some pc →
                  findKV r.inputs pn = some p →
                  ∀ k, k ∈ pc.map Prod.fst ↔ k ∈ requiredKwargs p))) := by
  intro m c hnd hnd2
  have outer := dictBeq_map_iff
    (fun rc rm => dictBeq (fun pc pm => setEqS (pc.map Prod.fst) pm) rc rm)
    (fun r : Region =>
      r.inputs.map (fun pkv => (pkv.1, requiredKwargs pkv.2)))
    c m.regions hnd
  refine Iff.trans outer ?_
  constructor
  · rintro ⟨k1, k2⟩
    refine ⟨k1, ?_⟩
    intro rn rc r hrc hr
    have inner := dictBeq_map_iff
      (fun pc pm => setEqS (pc.map Prod.fst) pm)
      (fun p : Property => requiredKwargs p) rc r.inputs
      (hnd2 (rn, rc) (findKV_mem hrc))
    have hi2 := inner.mp (k2 rn rc r hrc hr)
    exact ⟨hi2.1, fun pn pc p hpc hp =>
      setEqS_iff.mp (hi2.2 pn pc p hpc hp)⟩
  · rintro ⟨k1, k2⟩
    refine ⟨k1, ?_⟩
    intro rn rc r hrc hr
    have inner := dictBeq_map_iff
      (fun pc pm => setEqS (pc.map Prod.fst) pm)
      (fun p : Property => requiredKwargs p) rc r.inputs
      (hnd2 (rn, rc) (findKV_mem hrc))
    refine inner.mpr ⟨(k2 rn rc r hrc hr).1, ?_⟩
    intro pn pc p hpc hp
    exact setEqS_iff.mpr ((k2 rn rc r hrc hr).2 pn pc p hpc hp)

/-- Concrete model and config for the C3 witness. -/
def regW3 : Region := ⟨"R", none, [("poro", mkInputProp "poro")], []⟩

def mW3 : Model := ⟨"M", seedSeq 5, 100, [], [("R", regW3)]⟩

def cW3 : Config := [("R", [("poro", [("min", 1), ("max", 2)])])]

/-- Witness for C3: a valid one-region, one-property config. -/
theorem C3_check_config_exact_keys_witness :
    (findKV cW3 "R").isSome ↔ (findKV mW3.regions "R").isSome :=
  ((C3_check_config_exact_keys mW3 cW3 (by decide) (by decide)).mp
    (by decide)).1 "R"

/-! ## Seed bookkeeping lemmas (towards C10) -/

theorem childRange_append (e c a b : Nat) :
    (List.range a).map (fun k => SeedState.mk e [c + k] 0) ++
      (List.range b).map (fun k => SeedState.mk e [c + a + k] 0) =
      (List.range (a + b)).map (fun k => SeedState.mk e [c + k] 0) := by
  rw [List.range_add, List.map_append, List.map_map]
  congr 1
  apply List.map_congr_left
  intro k _
  simp [Function.comp, Nat.add_assoc]

theorem updateInputsSeeds_spec :
    ∀ (props : List (String × Property)) (s : SeedState) (n : Nat),
      ∃ cnt,
        (updateInputsSeeds props s n).2.2 =
          (List.range cnt).map
            (fun k => SeedState.mk s.entropy (s.key ++ [s.children + k]) 0)
        ∧ (updateInputsSeeds props s n).2.1 =
            ⟨s.entropy, s.key, s.children + cnt⟩ := by
  intro props
  induction props with
  | nil =>
    intro s n
    exact ⟨0, by simp [updateInputsSeeds], by cases s; simp [updateInputsSeeds]⟩
  | cons kv rest ih =>
    intro s n
    obtain ⟨pn, p⟩ := kv
    cases hd : p.distribution with
    | none =>
      rcases ih s n with ⟨cnt, htr, hsd⟩
      exact ⟨cnt, by simp [updateInputsSeeds, hd, htr],
             by simp [updateInputsSeeds, hd, hsd]⟩
    | some d =>
      rcases ih ⟨s.entropy, s.key, s.children + 1⟩ n with ⟨cnt, htr, hsd⟩
      refine ⟨cnt + 1, ?_, ?_⟩
      · simp only [updateInputsSeeds, hd, Distribution.update, spawn1]
        rw [htr]
        rw [List.range_succ_eq_map, List.map_cons, List.map_map]
        simp only [Nat.add_zero]
        congr 1
        apply List.map_congr_left
        intro k _
        simp [Function.comp, Nat.succ_eq_add_one]
        omega
      · simp only [updateInputsSeeds, hd, Distribution.update, spawn1]
        rw [hsd]
        congr 1
        dsimp only
        omega

theorem addToAllRegions_spec :
    ∀ (regs : List (String × Region)) (args : List Property) (s : SeedState)
      (n : Nat), s.key = [] →
      ∃ cnt,
        (addToAllRegions regs args s n).1.2.2 =
          (List.range cnt).map
            (fun k => SeedState.mk s.entropy [s.children + k] 0)
        ∧ (addToAllRegions regs args s n).1.2.1 =
            ⟨s.entropy, [], s.children + cnt⟩
        ∧ (addToAllRegions regs args s n).1.2.1.key = [] := by
  intro regs
  induction regs with
  | nil =>
    intro args s n hk
    refine ⟨0, by simp [addToAllRegions], ?_, ?_⟩ <;>
      (cases s; simp_all [addToAllRegions])
  | cons kv rest ih =>
    intro args s n hk
    obtain ⟨rn, r⟩ := kv
    cases ha : (Region.add_properties r args).2 with
    | some e =>
      refine ⟨0, ?_, ?_, ?_⟩ <;>
        (cases s; simp_all [addToAllRegions, ha])
    | none =>
      rcases updateInputsSeeds_spec (Region.add_properties r args).1.inputs
        s n with ⟨c1, htr1, hs1⟩
      rcases ih args ⟨s.entropy, [], s.children + c1⟩ n rfl with
        ⟨c2, htr2, hs2, _⟩
      have hu1 : (Region.update_properties (Region.add_properties r args).1
          s n).2.1 = ⟨s.entropy, [], s.children + c1⟩ := by
        simp [Region.update_properties, hs1, hk]
      have hu2 : (Region.update_properties (Region.add_properties r args).1
          s n).2.2 =
          (List.range c1).map
            (fun k => SeedState.mk s.entropy [s.children + k] 0) := by
        simp [Region.update_properties, htr1, hk]
      refine ⟨c1 + c2, ?_, ?_, ?_⟩
      · simp only [addToAllRegions, ha, hu1, hu2]
        rw [htr2]
        simpa using childRange_append s.entropy s.children c1 c2
      · simp only [addToAllRegions, ha, hu1]
        rw [hs2]
        congr 1
        dsimp only
        omega
      · simp only [addToAllRegions, ha, hu1]
        rw [hs2]

theorem addToNamedRegions_spec :
    ∀ (kwargs : List (String × List Property))
      (regs : List (String × Region)) (s : SeedState) (n : Nat)
      (mname : String), s.key = [] →
      ∃ cnt,
        (addToNamedRegions regs kwargs s n mname).1.2.2 =
          (List.range cnt).map
            (fun k => SeedState.mk s.entropy [s.children + k] 0)
        ∧ (addToNamedRegions regs kwargs s n mname).1.2.1 =
            ⟨s.entropy, [], s.children + cnt⟩ := by
  intro kwargs
  induction kwargs with
  | nil =>
    intro regs s n mname hk
    exact ⟨0, by simp [addToNamedRegions],
           by cases s; simp_all [addToNamedRegions]⟩
  | cons kv rest ih =>
    intro regs s n mname hk
    obtain ⟨rn, props⟩ := kv
    cases hfind : findKV regs rn with
    | none =>
      refine ⟨0, ?_, ?_⟩ <;> (cases s; simp_all [addToNamedRegions, hfind])
    | some r =>
      cases ha : (Region.add_properties r props).2 with
      | some e =>
        refine ⟨0, ?_, ?_⟩ <;>
          (cases s; simp_all [addToNamedRegions, hfind, ha])
      | none =>
        rcases updateInputsSeeds_spec (Region.add_properties r props).1.inputs
          s n with ⟨c1, htr1, hs1⟩
        rcases ih (setKV regs rn (Region.update_properties
            (Region.add_properties r props).1 s n).1)
          ⟨s.entropy, [], s.children + c1⟩ n mname rfl with ⟨c2, htr2, hs2⟩
        have hu1 : (Region.update_properties (Region.add_properties r props).1
            s n).2.1 = ⟨s.entropy, [], s.children + c1⟩ := by
          simp [Region.update_properties, hs1, hk]
        have hu2 : (Region.update_properties (Region.add_properties r props).1
            s n).2.2 =
            (List.range c1).map
              (fun k => SeedState.mk s.entropy [s.children + k] 0) := by
          simp [Region.update_properties, htr1, hk]
        refine ⟨c1 + c2, ?_, ?_⟩
        · simp only [addToNamedRegions, hfind, ha, hu1, hu2]
          rw [htr2]
          simpa using childRange_append s.entropy s.children c1 c2
        · simp only [addToNamedRegions, hfind, ha, hu1]
          rw [hs2]
          congr 1
          dsimp only
          omega

/-- C10: `Model.add_properties` first rebuilds the root seed from its own
entropy (spawn counter reset to zero) and then reseeds every input
property of every updated region by spawning one child each; hence the
`k`-th reseed of a call hands out exactly the child
`SeedSequence(entropy, spawn_key=(k,))`, the seeds handed out depend only
on the root entropy and the reseed position, and two calls on models with
equal root entropy hand out identical seeds at identical positions. -/
theorem C10_add_properties_reseeds_from_reset_root :
    ∀ (m : Model) (args : List Property)
      (kwargs : List (String × List Property)) (m2 : Model)
      (trace : List SeedState) (err : Option String),
      Model.add_properties m args kwargs = ((m2, trace), err) →
      (trace = (List.range trace.length).map
          (fun k => SeedState.mk m.seed.entropy [k] 0))
      ∧ (err = none → m2.seed = ⟨m.seed.entropy, [], trace.length⟩)
      ∧ ∀ (n : Model) (args2 : List Property)
          (kwargs2 : List (String × List Property)) (n2 : Model)
          (trace2 : List SeedState) (err2 : Option String) (k : Nat),
          Model.add_properties n args2 kwargs2 = ((n2, trace2), err2) →
          n.seed.entropy = m.seed.entropy →
          k < trace.length → k < trace2.length →
          trace.getD k ⟨0, [], 0⟩ = trace2.getD k ⟨0, [], 0⟩ := by
  have gr : ∀ (nn k : Nat) (g : Nat → SeedState) (d : SeedState), k < nn →
      ((List.range nn).map g).getD k d = g k := by
    intro nn k g d hkn
    rw [List.getD_eq_getElem?_getD]
    simp [List.getElem?_map, List.getElem?_range, hkn]
  have main : ∀ (m : Model) (args : List Property)
      (kwargs : List (String × List Property)),
      (Model.add_properties m args kwargs).1.2 =
        (List.range (Model.add_properties m args kwargs).1.2.length).map
          (fun k => SeedState.mk m.seed.entropy [k] 0)
      ∧ ((Model.add_properties m args kwargs).2 = none →
          (Model.add_properties m args kwargs).1.1.seed =
            ⟨m.seed.entropy, [],
             (Model.add_properties m args kwargs).1.2.length⟩) := by
    intro m args kwargs
    by_cases hargs : args.isEmpty = true
    · by_cases hkw : kwargs.isEmpty = true
      · simp [Model.add_properties, hargs, hkw, seedSeq]
      · rcases addToNamedRegions_spec kwargs m.regions
          (seedSeq m.seed.entropy) m.num_samples m.name rfl with
          ⟨c2, htr, hsd⟩
        simp only [Model.add_properties, hargs, if_true, hkw, if_false,
                   Bool.false_eq_true]
        constructor
        · rw [htr]
          simp [seedSeq]
        · intro _
          rw [hsd, htr]
          simp [seedSeq]
    · rcases addToAllRegions_spec m.regions args (seedSeq m.seed.entropy)
        m.num_samples rfl with ⟨c1, htr1, hsd1, _⟩
      simp only [Model.add_properties, hargs, Bool.false_eq_true, if_false]
      split
      next regs1 s1 tr1 e heq =>
        have htr1' : tr1 = (List.range c1).map
            (fun k => SeedState.mk m.seed.entropy [k] 0) := by
          rw [heq] at htr1
          dsimp only at htr1
          simpa [seedSeq] using htr1
        constructor
        · dsimp only
          rw [htr1']
          simp
        · intro hcontra
          dsimp only at hcontra
          exact absurd hcontra (by simp)
      next regs1 s1 tr1 heq =>
        have htr1' : tr1 = (List.range c1).map
            (fun k => SeedState.mk m.seed.entropy [k] 0) := by
          rw [heq] at htr1
          dsimp only at htr1
          simpa [seedSeq] using htr1
        have hs1 : s1 = ⟨m.seed.entropy, [], c1⟩ := by
          rw [heq] at hsd1
          dsimp only at hsd1
          simpa [seedSeq] using hsd1
        by_cases hkw : kwargs.isEmpty = true
        · simp only [hkw, if_true]
          constructor
          · dsimp only
            rw [htr1']
            simp
          · intro _
            rw [hs1, htr1']
            simp
        · rcases addToNamedRegions_spec kwargs regs1
            ⟨m.seed.entropy, [], c1⟩ m.num_samples m.name rfl with
            ⟨c2, htr2, hsd2⟩
          dsimp only at htr2 hsd2
          rw [← hs1] at htr2 hsd2
          simp only [hkw, Bool.false_eq_true, if_false]
          constructor
          · dsimp only
            rw [htr1', htr2]
            simp only [List.length_append, List.length_map,
                       List.length_range]
            have hcat := childRange_append m.seed.entropy 0 c1 c2
            simp only [Nat.zero_add] at hcat
            exact hcat
          · intro _
            rw [hsd2, htr1', htr2]
            simp
  intro m args kwargs m2 trace err h
  have hm1 := (main m args kwargs).1
  have hm2 := (main m args kwargs).2
  rw [h] at hm1 hm2
  dsimp only at hm1 hm2
  refine ⟨hm1, hm2, ?_⟩
  intro n args2 kwargs2 n2 trace2 err2 k h2 hent hk1 hk2
  have hn1 := (main n args2 kwargs2).1
  rw [h2] at hn1
  dsimp only at hn1
  conv_lhs => rw [hm1]
  conv_rhs => rw [hn1]
  rw [gr _ _ _ _ hk1, gr _ _ _ _ hk2, hent]

/-- A model whose root seed has already spawned five children, for the C10
witness (the call resets the counter). -/
def mW10 : Model := ⟨"M", ⟨42, [], 5⟩, 10, [], [("R", regW3)]⟩

/-! ## Reproducibility (towards C1)

`Distribution.__init__` draws a fresh `SeedSequence()` from the operating
system — the only nondeterminism in building a model from an explicit root
seed. The lemmas below show this entropy is dead state: attaching a region
overwrites every input distribution's seed and generator with children of
the model seed, so two identically built models are equal. -/

/-- Erase the construction-time randomness (fresh seed and generator) of a
distribution: two identically built distributions differ at most here. -/
def scrubD (d : Distribution) : Distribution :=
  { d with seed := seedSeq 0, rng := defaultRng (seedSeq 0) }

def scrubP (p : Property) : Property :=
  { p with distribution := p.distribution.map scrubD }

def scrubReg (r : Region) : Region :=
  { r with inputs := r.inputs.map (fun kv => (kv.1, scrubP kv.2)),
           results := r.results.map (fun kv => (kv.1, scrubP kv.2)) }

/-- A property as `Property.init` creates it: a result carries no
distribution. -/
def wfProp (p : Property) : Prop :=
  p.prop_type = "result" → p.distribution = none

/-- All result properties of a region carry no distribution. -/
def cleanResults (r : Region) : Prop :=
  ∀ kv ∈ r.results, kv.2.distribution = none

theorem exceptBind_ok {ε α β : Type} {x : Except ε α} {f : α → Except ε β}
    {b : β} (h : (x >>= f) = .ok b) : ∃ a, x = .ok a ∧ f a = .ok b := by
  cases x with
  | error e => simp [Bind.bind, Except.bind] at h
  | ok a => exact ⟨a, rfl, h⟩

theorem scrubP_of_none {p : Property} (h : p.distribution = none) :
    scrubP p = p := by
  cases p
  simp_all [scrubP]

theorem scrub_none_inj {p q : Property} (h : scrubP p = scrubP q)
    (hp : p.distribution = none) (hq : q.distribution = none) : p = q := by
  rw [scrubP_of_none hp, scrubP_of_none hq] at h
  exact h

theorem scrubP_fields {p q : Property} (h : scrubP p = scrubP q) :
    p.name = q.name ∧ p.prop_type = q.prop_type
    ∧ p.distribution.map scrubD = q.distribution.map scrubD
    ∧ p.equation = q.equation ∧ p.values = q.values ∧ p.stats = q.stats := by
  cases p
  cases q
  simp only [scrubP, Property.mk.injEq] at h
  exact h

theorem scrubReg_fields {r1 r2 : Region} (h : scrubReg r1 = scrubReg r2) :
    r1.name = r2.name ∧ r1.composition = r2.composition
    ∧ r1.inputs.map (fun kv => (kv.1, scrubP kv.2)) =
        r2.inputs.map (fun kv => (kv.1, scrubP kv.2))
    ∧ r1.results.map (fun kv => (kv.1, scrubP kv.2)) =
        r2.results.map (fun kv => (kv.1, scrubP kv.2)) := by
  cases r1
  cases r2
  simp only [scrubReg, Region.mk.injEq] at h
  exact h

theorem Distribution.update_congr {d1 d2 : Distribution}
    (h : scrubD d1 = scrubD d2) (s : SeedState) (n : Nat) :
    Distribution.update d1 s n = Distribution.update d2 s n := by
  cases d1
  cases d2
  simp only [scrubD, Distribution.mk.injEq, and_true, true_and] at h
  obtain ⟨h1, h2, h3⟩ := h
  subst h1
  subst h2
  subst h3
  rfl

/-- Reduced form of `Property.init` with a distribution argument. -/
theorem Property.init_some (nm dn : String) (eq : Option String) (nS : Nat)
    (kw : List (String × ℚ)) (f : Nat) :
    Property.init nm (some dn) eq nS kw f =
      match SCIPY_NAMES (pyLower dn) with
      | some d => .ok ⟨nm, "input",
          some ⟨d, nS, seedSeq f, defaultRng (seedSeq f), kw⟩, none,
          .num 0, none⟩
      | none =>
          .error "Function with a corresponding name not supported yet" := by
  cases hs : SCIPY_NAMES (pyLower dn) <;>
    (simp only [Property.init, Distribution.init, hs]; rfl)

theorem Property.init_congr {nm : String} {dist eq : Option String}
    {nS : Nat} {kw : List (String × ℚ)} {f1 f2 : Nat} {p1 p2 : Property}
    (h1 : Property.init nm dist eq nS kw f1 = .ok p1)
    (h2 : Property.init nm dist eq nS kw f2 = .ok p2) :
    scrubP p1 = scrubP p2 ∧ wfProp p1 ∧ wfProp p2 := by
  cases dist with
  | none =>
    cases eq with
    | none => simp [Property.init] at h1
    | some e =>
      simp only [Property.init] at h1 h2
      injection h1 with h1
      injection h2 with h2
      subst h1
      subst h2
      exact ⟨rfl, fun _ => rfl, fun _ => rfl⟩
  | some dn =>
    rw [Property.init_some] at h1 h2
    cases hs : SCIPY_NAMES (pyLower dn) with
    | none =>
      rw [hs] at h1
      exact absurd h1 (by simp)
    | some d =>
      rw [hs] at h1 h2
      injection h1 with h1
      injection h2 with h2
      subst h1
      subst h2
      refine ⟨rfl, ?_, ?_⟩ <;> (intro habs; simp at habs)

theorem buildProps_congr : ∀ (specs : List PropSpec) (e1 e2 : Nat → Nat)
    (i1 i2 : Nat) (ps1 ps2 : List Property),
    buildProps specs e1 i1 = .ok ps1 → buildProps specs e2 i2 = .ok ps2 →
    ps1.map scrubP = ps2.map scrubP
    ∧ (∀ p ∈ ps1, wfProp p) ∧ (∀ p ∈ ps2, wfProp p) := by
  intro specs
  induction specs with
  | nil =>
    intro e1 e2 i1 i2 ps1 ps2 h1 h2
    simp only [buildProps] at h1 h2
    injection h1 with h1
    injection h2 with h2
    subst h1
    subst h2
    simp
  | cons sp rest ih =>
    intro e1 e2 i1 i2 ps1 ps2 h1 h2
    simp only [buildProps] at h1 h2
    rcases exceptBind_ok h1 with ⟨p1, hp1, h1b⟩
    rcases exceptBind_ok h1b with ⟨rest1, hr1, h1c⟩
    rcases exceptBind_ok h2 with ⟨p2, hp2, h2b⟩
    rcases exceptBind_ok h2b with ⟨rest2, hr2, h2c⟩
    injection h1c with h1c
    injection h2c with h2c
    subst h1c
    subst h2c
    rcases Property.init_congr hp1 hp2 with ⟨hsc, hw1, hw2⟩
    rcases ih e1 e2 (i1 + 1) (i2 + 1) rest1 rest2 hr1 hr2 with
      ⟨hmap, hwr1, hwr2⟩
    refine ⟨by simp [hsc, hmap], ?_, ?_⟩
    · intro p hp
      rcases List.mem_cons.mp hp with rfl | hmem
      · exact hw1
      · exact hwr1 p hmem
    · intro p hp
      rcases List.mem_cons.mp hp with rfl | hmem
      · exact hw2
      · exact hwr2 p hmem

theorem findKV_isSome_congr {α : Type} {g : α → α}
    {d1 d2 : List (String × α)}
    (h : d1.map (fun kv => (kv.1, g kv.2)) =
         d2.map (fun kv => (kv.1, g kv.2)))
    (k : String) : (findKV d1 k).isSome = (findKV d2 k).isSome := by
  have h2 := congrArg (fun d => (findKV d k).isSome) h
  simpa [findKV_map] using h2

theorem contains_name_congr {r1 r2 : Region}
    (h : scrubReg r1 = scrubReg r2) (nm : String) :
    r1.contains_name nm = r2.contains_name nm := by
  obtain ⟨-, -, hi, hr⟩ := scrubReg_fields h
  simp [Region.contains_name, findKV_isSome_congr hi,
        findKV_isSome_congr hr]

theorem add_properties_congr : ∀ (ps1 ps2 : List Property) (r1 r2 : Region),
    scrubReg r1 = scrubReg r2 → ps1.map scrubP = ps2.map scrubP →
    scrubReg (Region.add_properties r1 ps1).1 =
      scrubReg (Region.add_properties r2 ps2).1
    ∧ (Region.add_properties r1 ps1).2 =
      (Region.add_properties r2 ps2).2 := by
  intro ps1
  induction ps1 with
  | nil =>
    intro ps2 r1 r2 hr hm
    have h0 : ps2 = [] := by simpa using hm.symm
    subst h0
    exact ⟨hr, rfl⟩
  | cons p1 rest1 ih =>
    intro ps2 r1 r2 hr hm
    cases ps2 with
    | nil => simp at hm
    | cons p2 rest2 =>
      simp only [List.map_cons, List.cons.injEq] at hm
      obtain ⟨hp, hrest⟩ := hm
      obtain ⟨hname, htype, -, -, -, -⟩ := scrubP_fields hp
      obtain ⟨hrname, hrn, hi, hre⟩ := scrubReg_fields hr
      have hcn : r1.contains_name p1.name = r2.contains_name p2.name := by
        rw [hname]
        exact contains_name_congr hr p2.name
      by_cases hc : r1.contains_name p1.name = true
      · have hc2 : r2.contains_name p2.name = true := by rw [← hcn]; exact hc
        simp only [Region.add_properties, hc, hc2, if_true]
        exact ⟨hr, by rw [hname, hrname]⟩
      · have hc2 : ¬ r2.contains_name p2.name = true := by
          rw [← hcn]; exact hc
        by_cases hin : p1.prop_type = "input"
        · have hin2 : p2.prop_type = "input" := by rw [← htype]; exact hin
          simp only [Region.add_properties, hc, hc2, Bool.false_eq_true,
                     if_false, hin, hin2, if_true]
          apply ih rest2 _ _ ?_ hrest
          simp only [scrubReg, Region.mk.injEq, List.map_append,
                     List.map_cons, List.map_nil]
          exact ⟨hrname, hrn, by rw [hi, hname, hp], hre⟩
        · have hin2 : ¬ p2.prop_type = "input" := by rw [← htype]; exact hin
          by_cases hres : p1.prop_type = "result"
          · have hres2 : p2.prop_type = "result" := by
              rw [← htype]; exact hres
            simp only [Region.add_properties, hc, hc2, Bool.false_eq_true,
                       if_false, hin, hin2, hres, hres2, if_true]
            apply ih rest2 _ _ ?_ hrest
            simp only [scrubReg, Region.mk.injEq, List.map_append,
                       List.map_cons, List.map_nil]
            exact ⟨hrname, hrn, hi, by rw [hre, hname, hp]⟩
          · have hres2 : ¬ p2.prop_type = "result" := by
              rw [← htype]; exact hres
            simp only [Region.add_properties, hc, hc2, Bool.false_eq_true,
                       if_false, hin, hin2, hres, hres2]
            exact ⟨hr, trivial⟩

theorem add_properties_clean : ∀ (ps : List Property) (r : Region),
    cleanResults r → (∀ p ∈ ps, wfProp p) →
    cleanResults (Region.add_properties r ps).1 := by
  intro ps
  induction ps with
  | nil =>
    intro r hc _
    exact hc
  | cons p rest ih =>
    intro r hc hw
    by_cases hdup : r.contains_name p.name = true
    · simp only [Region.add_properties, hdup, if_true]
      exact hc
    · by_cases hin : p.prop_type = "input"
      · simp only [Region.add_properties, hdup, Bool.false_eq_true,
                   if_false, hin, if_true]
        apply ih _ ?_ (fun q hq => hw q (List.mem_cons_of_mem _ hq))
        intro kv hkv
        exact hc kv hkv
      · by_cases hres : p.prop_type = "result"
        · simp only [Region.add_properties, hdup, Bool.false_eq_true,
                     if_false, hin, hres, if_true]
          apply ih _ ?_ (fun q hq => hw q (List.mem_cons_of_mem _ hq))
          intro kv hkv
          rcases List.mem_append.mp hkv with hold | hnew
          · exact hc kv hold
          · rcases List.mem_singleton.mp hnew with rfl
            exact hw p (List.mem_cons_self _ _) hres
        · simp only [Region.add_properties, hdup, Bool.false_eq_true,
                     if_false, hin, hres]
          exact hc

theorem buildRegion_congr {spec : RegionSpec} {e1 e2 : Nat → Nat}
    {r1 r2 : Region} (h1 : buildRegion spec e1 = .ok r1)
    (h2 : buildRegion spec e2 = .ok r2) :
    scrubReg r1 = scrubReg r2 ∧ cleanResults r1 ∧ cleanResults r2 := by
  simp only [buildRegion] at h1 h2
  rcases exceptBind_ok h1 with ⟨ps1, hps1, h1b⟩
  rcases exceptBind_ok h2 with ⟨ps2, hps2, h2b⟩
  rcases buildProps_congr spec.props e1 e2 0 0 ps1 ps2 hps1 hps2 with
    ⟨hmap, hw1, hw2⟩
  rcases add_properties_congr ps1 ps2 ⟨spec.name, spec.composition, [], []⟩
    ⟨spec.name, spec.composition, [], []⟩ rfl hmap with ⟨hsc, herr⟩
  cases ha : (Region.add_properties ⟨spec.name, spec.composition, [], []⟩
      ps1).2 with
  | some e =>
    simp only [ha] at h1b
    exact absurd h1b (by simp)
  | none =>
    have ha2 : (Region.add_properties ⟨spec.name, spec.composition, [], []⟩
        ps2).2 = none := by rw [← herr]; exact ha
    simp only [ha] at h1b
    simp only [ha2] at h2b
    injection h1b with h1b
    injection h2b with h2b
    subst h1b
    subst h2b
    refine ⟨hsc, ?_, ?_⟩
    · exact add_properties_clean ps1 _ (by intro kv hkv; simp at hkv) hw1
    · exact add_properties_clean ps2 _ (by intro kv hkv; simp at hkv) hw2

theorem buildRegions_congr : ∀ (specs : List RegionSpec) (e1 e2 : Nat → Nat)
    (j1 j2 : Nat) (rs1 rs2 : List Region),
    buildRegions specs e1 j1 = .ok rs1 →
    buildRegions specs e2 j2 = .ok rs2 →
    rs1.map scrubReg = rs2.map scrubReg
    ∧ (∀ r ∈ rs1, cleanResults r) ∧ (∀ r ∈ rs2, cleanResults r) := by
  intro specs
  induction specs with
  | nil =>
    intro e1 e2 j1 j2 rs1 rs2 h1 h2
    simp only [buildRegions] at h1 h2
    injection h1 with h1
    injection h2 with h2
    subst h1
    subst h2
    simp
  | cons sp rest ih =>
    intro e1 e2 j1 j2 rs1 rs2 h1 h2
    simp only [buildRegions] at h1 h2
    rcases exceptBind_ok h1 with ⟨r1, hr1, h1b⟩
    rcases exceptBind_ok h1b with ⟨rest1, hrest1, h1c⟩
    rcases exceptBind_ok h2 with ⟨r2, hr2, h2b⟩
    rcases exceptBind_ok h2b with ⟨rest2, hrest2, h2c⟩
    injection h1c with h1c
    injection h2c with h2c
    subst h1c
    subst h2c
    rcases buildRegion_congr hr1 hr2 with ⟨hsc, hc1, hc2⟩
    rcases ih e1 e2 (j1 + 1) (j2 + 1) rest1 rest2 hrest1 hrest2 with
      ⟨hmap, hcl1, hcl2⟩
    refine ⟨by simp [hsc, hmap], ?_, ?_⟩
    · intro r hrm
      rcases List.mem_cons.mp hrm with rfl | hmem
      · exact hc1
      · exact hcl1 r hmem
    · intro r hrm
      rcases List.mem_cons.mp hrm with rfl | hmem
      · exact hc2
      · exact hcl2 r hmem

theorem updateInputsReset_congr : ∀ (inp1 inp2 : List (String × Property))
    (s : SeedState) (n : Nat),
    inp1.map (fun kv => (kv.1, scrubP kv.2)) =
      inp2.map (fun kv => (kv.1, scrubP kv.2)) →
    updateInputsReset inp1 s n = updateInputsReset inp2 s n := by
  intro inp1
  induction inp1 with
  | nil =>
    intro inp2 s n h
    have h0 : inp2 = [] := by simpa using h.symm
    subst h0
    rfl
  | cons kv rest ih =>
    intro inp2 s n h
    cases inp2 with
    | nil => simp at h
    | cons kv2 rest2 =>
      obtain ⟨k1, p1⟩ := kv
      obtain ⟨k2, p2⟩ := kv2
      simp only [List.map_cons, List.cons.injEq, Prod.mk.injEq] at h
      obtain ⟨⟨hk, hp⟩, hrest⟩ := h
      subst hk
      obtain ⟨f1, f2, hdist, f3, f4, f5⟩ := scrubP_fields hp
      cases hd1 : p1.distribution with
      | none =>
        cases hd2 : p2.distribution with
        | some d2 =>
          rw [hd1, hd2] at hdist
          simp at hdist
        | none =>
          have hpp : p1 = p2 := scrub_none_inj hp hd1 hd2
          subst hpp
          simp only [updateInputsReset, hd1]
          rw [ih rest2 s n hrest]
      | some d1 =>
        cases hd2 : p2.distribution with
        | none =>
          rw [hd1, hd2] at hdist
          simp at hdist
        | some d2 =>
          rw [hd1, hd2] at hdist
          injection hdist with hdist
          have hup := Distribution.update_congr hdist s n
          simp only [updateInputsReset, hd1, hd2, hup]
          rw [ih rest2 ((Distribution.update d2 s n).2) n hrest]
          cases p1
          cases p2
          subst f1
          subst f2
          subst f3
          subst f4
          subst f5
          rfl

theorem results_eq_of_clean : ∀ (l1 l2 : List (String × Property)),
    l1.map (fun kv => (kv.1, scrubP kv.2)) =
      l2.map (fun kv => (kv.1, scrubP kv.2)) →
    (∀ kv ∈ l1, kv.2.distribution = none) →
    (∀ kv ∈ l2, kv.2.distribution = none) → l1 = l2 := by
  intro l1
  induction l1 with
  | nil =>
    intro l2 h _ _
    have h0 : l2 = [] := by simpa using h.symm
    rw [h0]
  | cons kv rest ih =>
    intro l2 h hc1 hc2
    cases l2 with
    | nil => simp at h
    | cons kv2 rest2 =>
      simp only [List.map_cons, List.cons.injEq, Prod.mk.injEq] at h
      obtain ⟨⟨hk, hp⟩, hrest⟩ := h
      have hv : kv.2 = kv2.2 :=
        scrub_none_inj hp (hc1 kv (List.mem_cons_self _ _))
          (hc2 kv2 (List.mem_cons_self _ _))
      have htail := ih rest2 hrest
        (fun x hx => hc1 x (List.mem_cons_of_mem _ hx))
        (fun x hx => hc2 x (List.mem_cons_of_mem _ hx))
      cases kv
      cases kv2
      simp_all

theorem add_regions_congr : ∀ (rs1 rs2 : List Region) (m : Model),
    rs1.map scrubReg = rs2.map scrubReg →
    (∀ r ∈ rs1, cleanResults r) → (∀ r ∈ rs2, cleanResults r) →
    Model.add_regions m rs1 = Model.add_regions m rs2 := by
  intro rs1
  induction rs1 with
  | nil =>
    intro rs2 m h _ _
    have h0 : rs2 = [] := by simpa using h.symm
    subst h0
    rfl
  | cons r1 rest1 ih =>
    intro rs2 m h hc1 hc2
    cases rs2 with
    | nil => simp at h
    | cons r2 rest2 =>
      simp only [List.map_cons, List.cons.injEq] at h
      obtain ⟨hsc, hrest⟩ := h
      obtain ⟨hn, hcomp, hi, hre⟩ := scrubReg_fields hsc
      have hres : r1.results = r2.results := by
        apply results_eq_of_clean
        · exact hre
        · exact hc1 r1 (List.mem_cons_self _ _)
        · exact hc2 r2 (List.mem_cons_self _ _)
      have hreg : ∀ X : List (String × Property),
          (⟨r2.name, r1.composition, X, r1.results⟩ : Region) =
            ⟨r2.name, r2.composition, X, r2.results⟩ := by
        intro X
        rw [hcomp, hres]
      simp only [Model.add_regions, hn]
      by_cases hdup : (findKV m.regions r2.name).isSome = true
      · simp only [hdup, if_true]
      · simp only [hdup, Bool.false_eq_true, if_false]
        rw [updateInputsReset_congr r1.inputs r2.inputs m.seed
              m.num_samples hi, hreg]
        exact ih rest2 _ hrest
          (fun r hrm => hc1 r (List.mem_cons_of_mem _ hrm))
          (fun r hrm => hc2 r (List.mem_cons_of_mem _ hrm))

theorem buildModel_congr {nameS : String} {S N : Nat}
    {specs : List RegionSpec} {e1 e2 : Nat → Nat} {m1 m2 : Model}
    (h1 : buildModel nameS S N specs e1 = .ok m1)
    (h2 : buildModel nameS S N specs e2 = .ok m2) : m1 = m2 := by
  simp only [buildModel] at h1 h2
  rcases exceptBind_ok h1 with ⟨rs1, hrs1, h1b⟩
  rcases exceptBind_ok h2 with ⟨rs2, hrs2, h2b⟩
  rcases buildRegions_congr specs e1 e2 0 0 rs1 rs2 hrs1 hrs2 with
    ⟨hmap, hcl1, hcl2⟩
  have heq := add_regions_congr rs1 rs2 (Model.init nameS (some S) 0 N)
    hmap hcl1 hcl2
  cases ha : (Model.add_regions (Model.init nameS (some S) 0 N) rs1).2 with
  | some e =>
    simp only [ha] at h1b
    exact absurd h1b (by simp)
  | none =>
    have ha2 : (Model.add_regions (Model.init nameS (some S) 0 N) rs2).2 =
        none := by rw [← heq]; exact ha
    simp only [ha] at h1b
    simp only [ha2] at h2b
    injection h1b with h1b
    injection h2b with h2b
    subst h1b
    subst h2b
    rw [heq]

/-- C1: reproducibility. Two models built identically (same name, same
root seed `S`, same sample count `N`, same insertion sequence of regions
and properties) from possibly different operating-system entropy streams
are equal, and running them with the same valid config yields the same
outcome — in particular bit-identical `values` for every property (the
run result contains every property's sample vector). The only
nondeterminism in the build, the fresh `SeedSequence()` of
`Distribution.__init__`, is overwritten when regions are attached; the
sampling function `rvs` and parser are arbitrary but fixed. -/
theorem C1_reproducibility :
    ∀ (rvs : SampleFn) (parse : ParseFn) (nameS : String) (S N : Nat)
      (specs : List RegionSpec) (cfg : Config) (ent1 ent2 : Nat → Nat)
      (m1 m2 : Model),
      buildModel nameS S N specs ent1 = .ok m1 →
      buildModel nameS S N specs ent2 = .ok m2 →
      Model.check_config m1 cfg = true →
      m1 = m2 ∧ Model.run rvs parse m1 cfg = Model.run rvs parse m2 cfg := by
  intro rvs parse nameS S N specs cfg ent1 ent2 m1 m2 h1 h2 hcfg
  have heq := buildModel_congr h1 h2
  exact ⟨heq, by rw [heq]⟩

/-- The insertion sequence of the C1 witness. -/
def specsC1 : List RegionSpec :=
  [⟨"R", none, [⟨"poro", some "uniform", none, 3, [("min", 1), ("max", 2)]⟩]⟩]

/-- The model both builds of the C1 witness produce. -/
def mC1 : Model :=
  ⟨"M", ⟨5, [], 1⟩, 10, [],
   [("R", ⟨"R", none,
     [("poro", ⟨"poro", "input",
       some ⟨.uniform, 10, ⟨5, [0], 0⟩, ⟨⟨5, [0], 0⟩, 0⟩,
             [("min", 1), ("max", 2)]⟩,
       none, .num 0, none⟩)], []⟩)]⟩

/-- Witness for C1: two builds from entropy streams 7 and 9. -/
theorem C1_reproducibility_witness :
    mC1 = mC1
    ∧ Model.run (fun _ n _ r => (List.replicate n 0, r))
        (fun _ => .ok (Expr.constant 1)) mC1 cW3 =
      Model.run (fun _ n _ r => (List.replicate n 0, r))
        (fun _ => .ok (Expr.constant 1)) mC1 cW3 :=
  C1_reproducibility (fun _ n _ r => (List.replicate n 0, r))
    (fun _ => .ok (Expr.constant 1)) "M" 5 10 specsC1 cW3
    (fun _ => 7) (fun _ => 9) mC1 mC1 rfl rfl (by decide)

/-- Witness for C10: a concrete positional `add_properties` call. -/
theorem C10_add_properties_reseeds_from_reset_root_witness :
    (Model.add_properties mW10 [mkInputProp "b"] []).1.2 =
      (List.range
          (Model.add_properties mW10 [mkInputProp "b"] []).1.2.length).map
        (fun k => SeedState.mk 42 [k] 0) :=
  (C10_add_properties_reseeds_from_reset_root mW10 [mkInputProp "b"] []
    (Model.add_properties mW10 [mkInputProp "b"] []).1.1
    (Model.add_properties mW10 [mkInputProp "b"] []).1.2
    (Model.add_properties mW10 [mkInputProp "b"] []).2 rfl).1

end PGS
